import Mathlib

/-!
Verification of the render-layer composition system described by the
repository's declaration files `src/engine/scene/layer.d.ts` and
`src/engine/scene/layer-composition.d.ts` together with the accompanying
specification.  The repository ships TypeScript declaration stubs only, so
the runtime behaviour of `pc.Layer` and `pc.LayerComposition` is modelled
from the specification (each such definition is marked
`Modelled from the spec:`), while the declared member types of the `.d.ts`
files are embedded verbatim as data (`tsLayerFields`,
`tsLayerCompositionMethods`, ...) so that claims about the declarations
themselves can be settled against the source.
-/

/-- Modelled from the spec: a mesh instance is an opaque handle with stable
identity, a transparency classification fixed at insertion time, and an
externally supplied explicit order key (`drawOrder`) used by `MANUAL`
sorting.  The implementation of `pc.MeshInstance` is not part of this
repository's sources. -/
structure MeshInstance where
  mid : Nat
  transparent : Bool
  drawOrder : Nat
  deriving DecidableEq

/-- Modelled from the spec: sort-mode enumeration value `SORTMODE_NONE`
(the numeric constants are not declared under `src/`; the five modes form a
closed enumeration, modelled as distinct numeric tags). -/
def SORTMODE_NONE : Nat := 0

/-- Modelled from the spec: sort-mode enumeration value `SORTMODE_MANUAL`. -/
def SORTMODE_MANUAL : Nat := 1

/-- Modelled from the spec: sort-mode enumeration value
`SORTMODE_MATERIALMESH`. -/
def SORTMODE_MATERIALMESH : Nat := 2

/-- Modelled from the spec: sort-mode enumeration value
`SORTMODE_BACK2FRONT`. -/
def SORTMODE_BACK2FRONT : Nat := 3

/-- Modelled from the spec: sort-mode enumeration value
`SORTMODE_FRONT2BACK`. -/
def SORTMODE_FRONT2BACK : Nat := 4

/-- Modelled from the spec: the observable state of a `pc.Layer` that the
claims are about.  Lights form a unique set and cameras a unique ordered
sequence of opaque handles (modelled as numeric identifiers). -/
structure Layer where
  id : Nat
  name : String
  enabled : Bool
  enableCounter : Nat
  opaqueSortMode : Nat
  transparentSortMode : Nat
  opaqueMeshInstances : List MeshInstance
  transparentMeshInstances : List MeshInstance
  shadowCasters : List MeshInstance
  lights : List Nat
  cameras : List Nat
  deriving DecidableEq

/-- Modelled from the spec: the constructor options relevant to the claims;
every option may be omitted. -/
structure LayerOptions where
  enabled : Option Bool
  name : Option String
  opaqueSortMode : Option Nat
  transparentSortMode : Option Nat
  deriving DecidableEq

/-- The options object with every option omitted. -/
def defaultLayerOptions : LayerOptions :=
  { enabled := none, name := none, opaqueSortMode := none, transparentSortMode := none }

/-- Modelled from the spec: the `pc.Layer` constructor.  `enabled` defaults
to true, the enable counter is seeded to 1 if enabled else 0,
`opaqueSortMode` defaults to `SORTMODE_MATERIALMESH` and
`transparentSortMode` to `SORTMODE_BACK2FRONT`; all owned collections start
empty.  The process-unique `id` is supplied by the caller here. -/
def Layer.construct (freshId : Nat) (o : LayerOptions) : Layer :=
  let en := o.enabled.getD true
  { id := freshId
    name := o.name.getD "Untitled"
    enabled := en
    enableCounter := if en then 1 else 0
    opaqueSortMode := o.opaqueSortMode.getD SORTMODE_MATERIALMESH
    transparentSortMode := o.transparentSortMode.getD SORTMODE_BACK2FRONT
    opaqueMeshInstances := []
    transparentMeshInstances := []
    shadowCasters := []
    lights := []
    cameras := [] }

/-- The two lifecycle callbacks that the enable counter can fire. -/
inductive CallbackEvent
  | onEnable
  | onDisable
  deriving DecidableEq

/-- The error raised by a caller-contract violation. -/
inductive LayerError
  | invalidState
  deriving DecidableEq

/-- Modelled from the spec: `pc.Layer#incrementCounter`.  The counter is
incremented; on a 0-to-1 transition the layer becomes enabled and
`onEnable` fires (returned as an emitted event list). -/
def Layer.incrementCounter (l : Layer) : Layer × List CallbackEvent :=
  if l.enableCounter = 0 then
    ({ l with enableCounter := 1, enabled := true }, [CallbackEvent.onEnable])
  else
    ({ l with enableCounter := l.enableCounter + 1 }, [])

/-- Modelled from the spec: `pc.Layer#decrementCounter`.  Decrementing a
counter that is already 0 fails with `InvalidStateError`; on a 1-to-0
transition the layer becomes disabled and `onDisable` fires. -/
def Layer.decrementCounter (l : Layer) : Except LayerError (Layer × List CallbackEvent) :=
  match l.enableCounter with
  | 0 => Except.error LayerError.invalidState
  | 1 => Except.ok ({ l with enableCounter := 0, enabled := false }, [CallbackEvent.onDisable])
  | n + 2 => Except.ok ({ l with enableCounter := n + 1 }, [])

/-- Remove the first occurrence of `m` from `xs` (argument order chosen for
use with `List.foldl`). -/
def eraseFirst (xs : List MeshInstance) (m : MeshInstance) : List MeshInstance :=
  match xs with
  | [] => []
  | x :: rest => if x = m then rest else x :: eraseFirst rest m

/-- Remove the first occurrence of a numeric handle from a list. -/
def eraseFirstNat (xs : List Nat) (x : Nat) : List Nat :=
  match xs with
  | [] => []
  | y :: rest => if y = x then rest else y :: eraseFirstNat rest x

/-- Modelled from the spec: adding one mesh instance appends it to the
opaque or transparent render list according to its transparency
classification (duplicates allowed), and unless `skipShadowCasters` also
appends it to `shadowCasters`. -/
def Layer.addMeshInstance1 (l : Layer) (m : MeshInstance) (skipShadowCasters : Bool) : Layer :=
  let l2 :=
    if m.transparent then
      { l with transparentMeshInstances := l.transparentMeshInstances ++ [m] }
    else
      { l with opaqueMeshInstances := l.opaqueMeshInstances ++ [m] }
  if skipShadowCasters then l2
  else { l2 with shadowCasters := l2.shadowCasters ++ [m] }

/-- Modelled from the spec: `pc.Layer#addMeshInstances`. -/
def Layer.addMeshInstances (l : Layer) (ms : List MeshInstance) (skipShadowCasters : Bool) : Layer :=
  ms.foldl (fun acc m => acc.addMeshInstance1 m skipShadowCasters) l

/-- Modelled from the spec: removing one mesh instance removes the first
matching occurrence from whichever render list contains it, and unless
`skipShadowCasters` also removes it from `shadowCasters`; removing an
instance that is not present is a silent no-op. -/
def Layer.removeMeshInstance1 (l : Layer) (m : MeshInstance) (skipShadowCasters : Bool) : Layer :=
  let l2 :=
    if m ∈ l.opaqueMeshInstances then
      { l with opaqueMeshInstances := eraseFirst l.opaqueMeshInstances m }
    else
      { l with transparentMeshInstances := eraseFirst l.transparentMeshInstances m }
  if skipShadowCasters then l2
  else { l2 with shadowCasters := eraseFirst l2.shadowCasters m }

/-- Modelled from the spec: `pc.Layer#removeMeshInstances`. -/
def Layer.removeMeshInstances (l : Layer) (ms : List MeshInstance) (skipShadowCasters : Bool) : Layer :=
  ms.foldl (fun acc m => acc.removeMeshInstance1 m skipShadowCasters) l

/-- Modelled from the spec: `pc.Layer#clearMeshInstances`. -/
def Layer.clearMeshInstances (l : Layer) (skipShadowCasters : Bool) : Layer :=
  let l2 := { l with opaqueMeshInstances := [], transparentMeshInstances := [] }
  if skipShadowCasters then l2 else { l2 with shadowCasters := [] }

/-- Modelled from the spec: `pc.Layer#addShadowCasters` mutates only the
shadow-caster list. -/
def Layer.addShadowCasters (l : Layer) (ms : List MeshInstance) : Layer :=
  { l with shadowCasters := l.shadowCasters ++ ms }

/-- Modelled from the spec: `pc.Layer#removeShadowCasters` mutates only the
shadow-caster list; absent instances are ignored. -/
def Layer.removeShadowCasters (l : Layer) (ms : List MeshInstance) : Layer :=
  { l with shadowCasters := ms.foldl eraseFirst l.shadowCasters }

/-- Modelled from the spec: `pc.Layer#addLight`; the light set is unique. -/
def Layer.addLight (l : Layer) (x : Nat) : Layer :=
  if x ∈ l.lights then l else { l with lights := l.lights ++ [x] }

/-- Modelled from the spec: `pc.Layer#removeLight`; removing an absent
light is a no-op. -/
def Layer.removeLight (l : Layer) (x : Nat) : Layer :=
  { l with lights := eraseFirstNat l.lights x }

/-- Modelled from the spec: `pc.Layer#clearLights`. -/
def Layer.clearLights (l : Layer) : Layer :=
  { l with lights := [] }

/-- Modelled from the spec: `pc.Layer#addCamera`; the camera sequence is
unique and ordered by insertion. -/
def Layer.addCamera (l : Layer) (x : Nat) : Layer :=
  if x ∈ l.cameras then l else { l with cameras := l.cameras ++ [x] }

/-- Modelled from the spec: `pc.Layer#removeCamera`; removing an absent
camera is a no-op. -/
def Layer.removeCamera (l : Layer) (x : Nat) : Layer :=
  { l with cameras := eraseFirstNat l.cameras x }

/-- Modelled from the spec: `pc.Layer#clearCameras`. -/
def Layer.clearCameras (l : Layer) : Layer :=
  { l with cameras := [] }

/-- Modelled from the spec: the observable state of a `pc.LayerComposition`
as exposed by the declaration file: three parallel arrays plus the derived
`cameras` aggregate. -/
structure LayerComposition where
  layerList : List Layer
  subLayerList : List Bool
  subLayerEnabled : List Bool
  cameras : List Nat
  deriving DecidableEq

/-- A freshly created, empty composition. -/
def LayerComposition.emptyComp : LayerComposition :=
  { layerList := [], subLayerList := [], subLayerEnabled := [], cameras := [] }

/-- Append a camera to the aggregate unless it is already present (the
engine-style incremental deduplicating append). -/
def dedupPush (acc : List Nat) (cam : Nat) : List Nat :=
  if cam ∈ acc then acc else acc ++ [cam]

/-- Walk the parallel `layerList`/`subLayerEnabled` arrays, accumulating
the cameras of each enabled entry with `dedupPush`. -/
def rebuildCamerasFrom : List Layer → List Bool → List Nat → List Nat
  | l :: ls, e :: es, acc =>
    rebuildCamerasFrom ls es (if e then l.cameras.foldl dedupPush acc else acc)
  | _, _, acc => acc

/-- Modelled from the spec: the recomputation of the `cameras` aggregate
performed after every mutating call. -/
def LayerComposition.rebuildCameras (c : LayerComposition) : List Nat :=
  rebuildCamerasFrom c.layerList c.subLayerEnabled []

/-- Store the recomputed `cameras` aggregate in the composition. -/
def LayerComposition.updateCameras (c : LayerComposition) : LayerComposition :=
  { c with cameras := c.rebuildCameras }

/-- Insert a block of new elements at position `i` of a list. -/
def insertAllAt {α : Type} (i : Nat) (new : List α) (xs : List α) : List α :=
  xs.take i ++ new ++ xs.drop i

/-- Simultaneously delete, from three parallel lists, every position whose
layer/flag pair satisfies `f`. -/
def removeEntries (f : Layer → Bool → Bool) :
    List Layer → List Bool → List Bool → List Layer × List Bool × List Bool
  | l :: ls, s :: ss, e :: es =>
    let r := removeEntries f ls ss es
    if f l s then r else (l :: r.1, s :: r.2.1, e :: r.2.2)
  | ls, ss, es => (ls, ss, es)

/-- The mutating operations of a `pc.LayerComposition`, together with the
two external changes the camera-aggregation invariant must survive:
toggling a `subLayerEnabled` flag and replacing a referenced layer's camera
set. -/
inductive CompOp
  | push (l : Layer)
  | insert (l : Layer) (i : Nat)
  | pushOpaque (l : Layer)
  | insertOpaque (l : Layer) (i : Nat)
  | pushTransparent (l : Layer)
  | insertTransparent (l : Layer) (i : Nat)
  | remove (l : Layer)
  | removeOpaque (l : Layer)
  | removeTransparent (l : Layer)
  | setSubLayerEnabled (i : Nat) (b : Bool)
  | setLayerCameras (lid : Nat) (cams : List Nat)
  deriving DecidableEq

/-- Modelled from the spec: apply one mutating operation to a composition.
`push` appends the opaque entry first and then the transparent one, both
enabled; `insert` inserts the same pair at the given index; `remove`
deletes every entry referencing the layer; the partitioned variants act on
one partition only.  Every operation finishes by recomputing `cameras`. -/
def applyCompOp (c : LayerComposition) : CompOp → LayerComposition
  | CompOp.push l =>
    LayerComposition.updateCameras
      { c with layerList := c.layerList ++ [l, l],
               subLayerList := c.subLayerList ++ [false, true],
               subLayerEnabled := c.subLayerEnabled ++ [true, true] }
  | CompOp.insert l i =>
    LayerComposition.updateCameras
      { c with layerList := insertAllAt i [l, l] c.layerList,
               subLayerList := insertAllAt i [false, true] c.subLayerList,
               subLayerEnabled := insertAllAt i [true, true] c.subLayerEnabled }
  | CompOp.pushOpaque l =>
    LayerComposition.updateCameras
      { c with layerList := c.layerList ++ [l],
               subLayerList := c.subLayerList ++ [false],
               subLayerEnabled := c.subLayerEnabled ++ [true] }
  | CompOp.insertOpaque l i =>
    LayerComposition.updateCameras
      { c with layerList := insertAllAt i [l] c.layerList,
               subLayerList := insertAllAt i [false] c.subLayerList,
               subLayerEnabled := insertAllAt i [true] c.subLayerEnabled }
  | CompOp.pushTransparent l =>
    LayerComposition.updateCameras
      { c with layerList := c.layerList ++ [l],
               subLayerList := c.subLayerList ++ [true],
               subLayerEnabled := c.subLayerEnabled ++ [true] }
  | CompOp.insertTransparent l i =>
    LayerComposition.updateCameras
      { c with layerList := insertAllAt i [l] c.layerList,
               subLayerList := insertAllAt i [true] c.subLayerList,
               subLayerEnabled := insertAllAt i [true] c.subLayerEnabled }
  | CompOp.remove l =>
    let r := removeEntries (fun x _ => x.id == l.id) c.layerList c.subLayerList c.subLayerEnabled
    LayerComposition.updateCameras
      { c with layerList := r.1, subLayerList := r.2.1, subLayerEnabled := r.2.2 }
  | CompOp.removeOpaque l =>
    let r := removeEntries (fun x s => x.id == l.id && !s) c.layerList c.subLayerList c.subLayerEnabled
    LayerComposition.updateCameras
      { c with layerList := r.1, subLayerList := r.2.1, subLayerEnabled := r.2.2 }
  | CompOp.removeTransparent l =>
    let r := removeEntries (fun x s => x.id == l.id && s) c.layerList c.subLayerList c.subLayerEnabled
    LayerComposition.updateCameras
      { c with layerList := r.1, subLayerList := r.2.1, subLayerEnabled := r.2.2 }
  | CompOp.setSubLayerEnabled i b =>
    LayerComposition.updateCameras
      { c with subLayerEnabled := c.subLayerEnabled.set i b }
  | CompOp.setLayerCameras lid cams =>
    let upd := fun (x : Layer) => if x.id = lid then { x with cameras := cams } else x
    LayerComposition.updateCameras { c with layerList := c.layerList.map upd }

/-- Run a sequence of composition operations from the empty composition. -/
def runComp (ops : List CompOp) : LayerComposition :=
  ops.foldl applyCompOp LayerComposition.emptyComp

/-- First index of the parallel lists whose layer/flag pair satisfies `f`,
with the engine's `-1` not-found sentinel. -/
def findEntryIndex (f : Layer → Bool → Bool) : List Layer → List Bool → Int
  | l :: ls, s :: ss =>
    if f l s then 0
    else
      let r := findEntryIndex f ls ss
      if r < 0 then -1 else r + 1
  | _, _ => -1

/-- Modelled from the spec: `pc.LayerComposition#getOpaqueIndex` — linear
scan for the first opaque entry of the given layer, `-1` when absent. -/
def LayerComposition.getOpaqueIndex (c : LayerComposition) (l : Layer) : Int :=
  findEntryIndex (fun x s => x.id == l.id && !s) c.layerList c.subLayerList

/-- Modelled from the spec: `pc.LayerComposition#getTransparentIndex` —
linear scan for the first transparent entry of the given layer, `-1` when
absent. -/
def LayerComposition.getTransparentIndex (c : LayerComposition) (l : Layer) : Int :=
  findEntryIndex (fun x s => x.id == l.id && s) c.layerList c.subLayerList

/-- Modelled from the spec: `pc.LayerComposition#getLayerById` — first
referenced layer with the given id, `none` (null) on a miss. -/
def LayerComposition.getLayerById (c : LayerComposition) (i : Nat) : Option Layer :=
  c.layerList.find? (fun l => l.id == i)

/-- Modelled from the spec: `pc.LayerComposition#getLayerByName` — first
referenced layer with the given name, `none` (null) on a miss. -/
def LayerComposition.getLayerByName (c : LayerComposition) (nm : String) : Option Layer :=
  c.layerList.find? (fun l => l.name == nm)

/-- Modelled from the spec (the spec's own words, for comparison with the
operational recomputation): keep the first occurrence of each camera,
dropping later duplicates, preserving order; `seen` carries the cameras
already emitted. -/
def dedupKeepFirstAux (seen : List Nat) : List Nat → List Nat
  | [] => []
  | c :: cs =>
    if c ∈ seen then dedupKeepFirstAux seen cs
    else c :: dedupKeepFirstAux (c :: seen) cs

/-- Modelled from the spec: order-stable, duplicate-free projection of a
camera list. -/
def dedupKeepFirst (cs : List Nat) : List Nat :=
  dedupKeepFirstAux [] cs

/-- Concatenation of the camera lists of exactly the entries whose
`subLayerEnabled` flag is true, in entry order. -/
def enabledEntriesCameras : List Layer → List Bool → List Nat
  | l :: ls, e :: es => (if e then l.cameras else []) ++ enabledEntriesCameras ls es
  | _, _ => []

/-- Modelled from the spec (the spec's own words): `cameras` must equal the
duplicate-free, order-stable union of `layer.cameras` over exactly those
entries whose `subLayerEnabled` flag is true. -/
def LayerComposition.camerasSpec (c : LayerComposition) : List Nat :=
  dedupKeepFirst (enabledEntriesCameras c.layerList c.subLayerEnabled)

/-- Modelled from the spec (design note): one entry of the record-based
reference model — a tagged record `(layer, isTransparent, enabled)`. -/
structure SubLayerEntry where
  layer : Layer
  isTransparent : Bool
  enabled : Bool
  deriving DecidableEq

/-- Apply `f` to the element at position `i`, if any. -/
def modifyAt {α : Type} (i : Nat) (f : α → α) : List α → List α
  | [] => []
  | x :: xs =>
    match i with
    | 0 => f x :: xs
    | j + 1 => x :: modifyAt j f xs

/-- Modelled from the spec (design note): the same mutating operations
acting on the record-based reference model, of which the three parallel
arrays are projections. -/
def entriesApply (es : List SubLayerEntry) : CompOp → List SubLayerEntry
  | CompOp.push l => es ++ [⟨l, false, true⟩, ⟨l, true, true⟩]
  | CompOp.insert l i => insertAllAt i [⟨l, false, true⟩, ⟨l, true, true⟩] es
  | CompOp.pushOpaque l => es ++ [⟨l, false, true⟩]
  | CompOp.insertOpaque l i => insertAllAt i [⟨l, false, true⟩] es
  | CompOp.pushTransparent l => es ++ [⟨l, true, true⟩]
  | CompOp.insertTransparent l i => insertAllAt i [⟨l, true, true⟩] es
  | CompOp.remove l => es.filter (fun e => !(e.layer.id == l.id))
  | CompOp.removeOpaque l => es.filter (fun e => !(e.layer.id == l.id && !e.isTransparent))
  | CompOp.removeTransparent l => es.filter (fun e => !(e.layer.id == l.id && e.isTransparent))
  | CompOp.setSubLayerEnabled i b => modifyAt i (fun e => { e with enabled := b }) es
  | CompOp.setLayerCameras lid cams =>
    let upd := fun (x : Layer) => if x.id = lid then { x with cameras := cams } else x
    es.map (fun e => { e with layer := upd e.layer })

/-- Run a sequence of operations on the record-based reference model. -/
def runEntries (ops : List CompOp) : List SubLayerEntry :=
  ops.foldl entriesApply []

/-- The two enable-counter calls. -/
inductive CounterOp
  | inc
  | dec
  deriving DecidableEq

/-- One enable-counter call as a state transition with emitted events. -/
def counterStep (l : Layer) : CounterOp → Except LayerError (Layer × List CallbackEvent)
  | CounterOp.inc => Except.ok l.incrementCounter
  | CounterOp.dec => l.decrementCounter

/-- One record of a counter-call trace: the state before the call, the
call, the state after it and the callbacks it fired. -/
structure CounterStep where
  before : Layer
  op : CounterOp
  after : Layer
  events : List CallbackEvent
  deriving DecidableEq

/-- The trace of a sequence of counter calls: one record per completed
call; the trace stops at the first failing call. -/
def counterTrace (l : Layer) : List CounterOp → List CounterStep
  | [] => []
  | op :: ops =>
    match counterStep l op with
    | Except.error _ => []
    | Except.ok (l2, evs) =>
      { before := l, op := op, after := l2, events := evs } :: counterTrace l2 ops

/-- The layer's `enabled` flag agrees with positivity of its counter. -/
def Layer.enabledMatchesCounter (l : Layer) : Prop :=
  l.enabled = true ↔ 0 < l.enableCounter

/-- All modelled mutation calls of a `pc.Layer`, used to state which of
them can raise. -/
inductive LayerOp
  | incCounter
  | decCounter
  | addMeshInstancesOp (ms : List MeshInstance) (skip : Bool)
  | removeMeshInstancesOp (ms : List MeshInstance) (skip : Bool)
  | clearMeshInstancesOp (skip : Bool)
  | addShadowCastersOp (ms : List MeshInstance)
  | removeShadowCastersOp (ms : List MeshInstance)
  | addLightOp (x : Nat)
  | removeLightOp (x : Nat)
  | clearLightsOp
  | addCameraOp (x : Nat)
  | removeCameraOp (x : Nat)
  | clearCamerasOp
  deriving DecidableEq

/-- Modelled from the spec: apply one mutation call to a layer; only
`decrementCounter` can fail, every other call is total. -/
def applyLayerOp (l : Layer) : LayerOp → Except LayerError Layer
  | LayerOp.incCounter => Except.ok l.incrementCounter.1
  | LayerOp.decCounter =>
    match l.decrementCounter with
    | Except.error e => Except.error e
    | Except.ok (l2, _) => Except.ok l2
  | LayerOp.addMeshInstancesOp ms skip => Except.ok (l.addMeshInstances ms skip)
  | LayerOp.removeMeshInstancesOp ms skip => Except.ok (l.removeMeshInstances ms skip)
  | LayerOp.clearMeshInstancesOp skip => Except.ok (l.clearMeshInstances skip)
  | LayerOp.addShadowCastersOp ms => Except.ok (l.addShadowCasters ms)
  | LayerOp.removeShadowCastersOp ms => Except.ok (l.removeShadowCasters ms)
  | LayerOp.addLightOp x => Except.ok (l.addLight x)
  | LayerOp.removeLightOp x => Except.ok (l.removeLight x)
  | LayerOp.clearLightsOp => Except.ok l.clearLights
  | LayerOp.addCameraOp x => Except.ok (l.addCamera x)
  | LayerOp.removeCameraOp x => Except.ok (l.removeCamera x)
  | LayerOp.clearCamerasOp => Except.ok l.clearCameras

/-- Modelled from the spec: stable insertion step of `MANUAL` sorting — the
new instance is placed before the first already-placed instance whose order
key is not smaller, so instances inserted earlier keep priority among equal
keys. -/
def insertByDrawOrder (m : MeshInstance) : List MeshInstance → List MeshInstance
  | [] => [m]
  | x :: xs =>
    if m.drawOrder ≤ x.drawOrder then m :: x :: xs
    else x :: insertByDrawOrder m xs

/-- Modelled from the spec: `MANUAL`-mode sorting of a render list — a
stable sort by the externally supplied `drawOrder` key. -/
def sortManual : List MeshInstance → List MeshInstance
  | [] => []
  | m :: ms => insertByDrawOrder m (sortManual ms)

/-- Modelled from the spec: per-camera sorting of a render list as selected
by a layer's sort-mode value; `NONE` preserves insertion order, `MANUAL`
is the stable key sort (the camera-distance modes depend on external camera
state and are outside the claims). -/
def sortRenderList (mode : Nat) (ms : List MeshInstance) : List MeshInstance :=
  if mode = SORTMODE_MANUAL then sortManual ms else ms

/-- The TypeScript types occurring in the two declaration files, embedded
as data so that the declared member types can be compared with the
documented ones. -/
inductive TsType
  | number
  | boolean
  | stringT
  | voidT
  | functionT
  | layerT
  | meshInstanceT
  | cameraComponentT
  | lightComponentT
  | colorT
  | renderTargetT
  | arrayOf (t : TsType)
  deriving DecidableEq

/-- The instance fields of `class Layer` exactly as declared in
`src/engine/scene/layer.d.ts` (lines 104-135): each field name with its
declared type. -/
def tsLayerFields : List (String × TsType) :=
  [("id", TsType.number),
   ("name", TsType.stringT),
   ("enabled", TsType.boolean),
   ("opaqueSortMode", TsType.number),
   ("transparentSortMode", TsType.number),
   ("renderTarget", TsType.renderTargetT),
   ("shaderPass", TsType.number),
   ("passThrough", TsType.boolean),
   ("overrideClear", TsType.boolean),
   ("clearColor", TsType.colorT),
   ("clearColorBuffer", TsType.boolean),
   ("clearDepthBuffer", TsType.boolean),
   ("clearStencilBuffer", TsType.boolean),
   ("layerReference", TsType.layerT),
   ("cullingMask", TsType.number),
   ("opaqueMeshInstances", TsType.arrayOf TsType.meshInstanceT),
   ("transparentMeshInstances", TsType.arrayOf TsType.meshInstanceT),
   ("shadowCasters", TsType.arrayOf TsType.boolean),
   ("onEnable", TsType.functionT),
   ("onDisable", TsType.functionT),
   ("onPreCull", TsType.functionT),
   ("onPostCull", TsType.functionT),
   ("onPreRender", TsType.functionT),
   ("onPostRender", TsType.functionT),
   ("onPreRenderOpaque", TsType.functionT),
   ("onPostRenderOpaque", TsType.functionT),
   ("onPreRenderTransparent", TsType.functionT),
   ("onPostRenderTransparent", TsType.functionT),
   ("onDrawCall", TsType.functionT)]

/-- The method signatures of `class Layer` exactly as declared in
`src/engine/scene/layer.d.ts`: name, declared parameter types (optional
parameters included), declared return type. -/
def tsLayerMethods : List (String × List TsType × TsType) :=
  [("incrementCounter", ([], TsType.voidT)),
   ("decrementCounter", ([], TsType.voidT)),
   ("addMeshInstances", ([TsType.arrayOf TsType.meshInstanceT, TsType.boolean], TsType.voidT)),
   ("removeMeshInstances", ([TsType.arrayOf TsType.meshInstanceT, TsType.boolean], TsType.voidT)),
   ("clearMeshInstances", ([TsType.boolean], TsType.voidT)),
   ("addLight", ([TsType.lightComponentT], TsType.voidT)),
   ("removeLight", ([TsType.lightComponentT], TsType.voidT)),
   ("clearLights", ([], TsType.voidT)),
   ("addShadowCasters", ([TsType.arrayOf TsType.meshInstanceT], TsType.voidT)),
   ("removeShadowCasters", ([TsType.arrayOf TsType.meshInstanceT], TsType.voidT)),
   ("addCamera", ([TsType.cameraComponentT], TsType.voidT)),
   ("removeCamera", ([TsType.cameraComponentT], TsType.voidT)),
   ("clearCameras", ([], TsType.voidT))]

/-- The method signatures of `class LayerComposition` exactly as declared
in `src/engine/scene/layer-composition.d.ts`: name, declared parameter
types, declared return type.  In particular `getOpaqueIndex` and
`getTransparentIndex` are declared with return type `void`. -/
def tsLayerCompositionMethods : List (String × List TsType × TsType) :=
  [("push", ([TsType.layerT], TsType.voidT)),
   ("insert", ([TsType.layerT, TsType.number], TsType.voidT)),
   ("remove", ([TsType.layerT], TsType.voidT)),
   ("pushOpaque", ([TsType.layerT], TsType.voidT)),
   ("insertOpaque", ([TsType.layerT, TsType.number], TsType.voidT)),
   ("removeOpaque", ([TsType.layerT], TsType.voidT)),
   ("pushTransparent", ([TsType.layerT], TsType.voidT)),
   ("insertTransparent", ([TsType.layerT, TsType.number], TsType.voidT)),
   ("removeTransparent", ([TsType.layerT], TsType.voidT)),
   ("getOpaqueIndex", ([TsType.layerT], TsType.voidT)),
   ("getTransparentIndex", ([TsType.layerT], TsType.voidT)),
   ("getLayerById", ([TsType.number], TsType.layerT)),
   ("getLayerByName", ([TsType.stringT], TsType.layerT))]

/-- The `@returns` types stated by the doc comments of
`src/engine/scene/layer-composition.d.ts` for the methods that document a
return value: `getOpaqueIndex` and `getTransparentIndex` document
`@returns {Number}`, the two lookups document `@returns {pc.Layer}`. -/
def tsLayerCompositionDocReturns : List (String × TsType) :=
  [("getOpaqueIndex", TsType.number),
   ("getTransparentIndex", TsType.number),
   ("getLayerById", TsType.layerT),
   ("getLayerByName", TsType.layerT)]

/-- Declared return type of a method, looked up by name. -/
def tsDeclaredReturn (methods : List (String × List TsType × TsType)) (nm : String) : Option TsType :=
  (methods.lookup nm).map (fun sig => sig.2)

/-- Declared parameter types of a method, looked up by name. -/
def tsDeclaredParams (methods : List (String × List TsType × TsType)) (nm : String) : Option (List TsType) :=
  (methods.lookup nm).map (fun sig => sig.1)

/-- Declared type of a field, looked up by name. -/
def tsFieldType (fields : List (String × TsType)) (nm : String) : Option TsType :=
  fields.lookup nm

/-- The enable-counter invariant holds for every freshly constructed
layer. -/
theorem construct_enabledMatchesCounter (n : Nat) (o : LayerOptions) :
    (Layer.construct n o).enabledMatchesCounter := by
  cases h : o.enabled.getD true <;>
    simp [Layer.construct, Layer.enabledMatchesCounter, h]

/-- Claim C10: a layer constructed with no options (or with the `enabled`
option omitted) starts enabled with `enableCounter = 1`, its
`opaqueSortMode` defaults to `SORTMODE_MATERIALMESH` and its
`transparentSortMode` defaults to `SORTMODE_BACK2FRONT`. -/
theorem layer_constructor_defaults :
    (Layer.construct 0 defaultLayerOptions).enabled = true
    ∧ (Layer.construct 0 defaultLayerOptions).enableCounter = 1
    ∧ (Layer.construct 0 defaultLayerOptions).opaqueSortMode = SORTMODE_MATERIALMESH
    ∧ (Layer.construct 0 defaultLayerOptions).transparentSortMode = SORTMODE_BACK2FRONT
    ∧ ∀ (n : Nat) (o : LayerOptions),
        (Layer.construct n { o with enabled := none }).enabled = true
        ∧ (Layer.construct n { o with enabled := none }).enableCounter = 1 := by
  refine ⟨rfl, rfl, rfl, rfl, ?_⟩
  intro n o
  exact ⟨rfl, rfl⟩

/-- Claim C4 (declaration bug): `getOpaqueIndex` and `getTransparentIndex`
are declared with return type `void` in
`src/engine/scene/layer-composition.d.ts`, contradicting the same file's
doc comments, which document `@returns {Number}` — so as declared the two
lookups cannot return the valid indices the claim (and the documentation)
describe. -/
theorem getIndex_declared_return_contradicts_doc :
    tsDeclaredReturn tsLayerCompositionMethods "getOpaqueIndex" = some TsType.voidT
    ∧ tsLayerCompositionDocReturns.lookup "getOpaqueIndex" = some TsType.number
    ∧ tsDeclaredReturn tsLayerCompositionMethods "getTransparentIndex" = some TsType.voidT
    ∧ tsLayerCompositionDocReturns.lookup "getTransparentIndex" = some TsType.number
    ∧ TsType.voidT ≠ TsType.number := by
  refine ⟨rfl, rfl, rfl, rfl, ?_⟩
  decide

/-- Claim C6 (declaration bug): `src/engine/scene/layer.d.ts` declares
`shadowCasters: boolean[]`, while the same file's `addShadowCasters` and
`removeShadowCasters` take `pc.MeshInstance[]` arrays whose elements are,
per their doc comments, added to and removed from the shadow-caster list —
so the declared element type contradicts the claim (and the file's own
documentation), under which `shadowCasters` holds mesh-instance
references, not booleans. -/
theorem shadowCasters_declared_boolean_array :
    tsFieldType tsLayerFields "shadowCasters" = some (TsType.arrayOf TsType.boolean)
    ∧ tsDeclaredParams tsLayerMethods "addShadowCasters" = some [TsType.arrayOf TsType.meshInstanceT]
    ∧ tsDeclaredParams tsLayerMethods "removeShadowCasters" = some [TsType.arrayOf TsType.meshInstanceT]
    ∧ TsType.arrayOf TsType.boolean ≠ TsType.arrayOf TsType.meshInstanceT := by
  refine ⟨rfl, rfl, rfl, ?_⟩
  decide

/-- Claim C5: decrementing the enable counter of a layer whose counter is
already 0 raises `InvalidStateError` immediately (the counter is never
driven negative, and an ok result always has a counter exactly one below
the old one), and among all the modelled mutation calls this is the only
one that can raise. -/
theorem decrement_at_zero_raises (l : Layer) (op : LayerOp) :
    ((applyLayerOp l op).isOk = false ↔ op = LayerOp.decCounter ∧ l.enableCounter = 0)
    ∧ (l.enableCounter = 0 →
        applyLayerOp l LayerOp.decCounter = Except.error LayerError.invalidState)
    ∧ (∀ l2 : Layer, applyLayerOp l LayerOp.decCounter = Except.ok l2 →
        l2.enableCounter + 1 = l.enableCounter) := by
  refine ⟨?_, ?_, ?_⟩
  · cases op <;> simp [applyLayerOp, Except.isOk, Except.toBool]
    rcases hc : l.enableCounter with _ | (_ | n) <;>
      simp [Layer.decrementCounter, hc]
  · intro h0
    simp [applyLayerOp, Layer.decrementCounter, h0]
  · intro l2 h
    rcases hc : l.enableCounter with _ | (_ | n) <;>
      simp [applyLayerOp, Layer.decrementCounter, hc] at h <;>
      simp [← h, hc]

/-- Witness for claim C5 at a concrete disabled layer. -/
theorem decrement_at_zero_raises_witness :
    applyLayerOp (Layer.construct 7 { defaultLayerOptions with enabled := some false })
        LayerOp.decCounter
      = Except.error LayerError.invalidState :=
  (decrement_at_zero_raises
      (Layer.construct 7 { defaultLayerOptions with enabled := some false })
      LayerOp.decCounter).2.1 (by decide)

/-- Characterization of one successful enable-counter call: it preserves
the `enabled`/counter agreement, fires `onEnable` exactly on the 0-to-1
increment, fires `onDisable` exactly on the 1-to-0 decrement, and fires
nothing on any other transition. -/
theorem counterStep_characterization (l : Layer) (op : CounterOp) (l2 : Layer)
    (evs : List CallbackEvent) (hinv : l.enabledMatchesCounter)
    (h : counterStep l op = Except.ok (l2, evs)) :
    l2.enabledMatchesCounter
    ∧ (evs = [CallbackEvent.onEnable] ↔ (op = CounterOp.inc ∧ l.enableCounter = 0))
    ∧ (evs = [CallbackEvent.onDisable] ↔ (op = CounterOp.dec ∧ l.enableCounter = 1))
    ∧ (evs = [] ↔
        ¬(op = CounterOp.inc ∧ l.enableCounter = 0)
        ∧ ¬(op = CounterOp.dec ∧ l.enableCounter = 1)) := by
  cases op
  · by_cases hc : l.enableCounter = 0
    · simp [counterStep, Layer.incrementCounter, hc] at h
      obtain ⟨h1, h2⟩ := h
      subst h1; subst h2
      simp [Layer.enabledMatchesCounter, hc]
    · simp [counterStep, Layer.incrementCounter, hc] at h
      obtain ⟨h1, h2⟩ := h
      subst h1; subst h2
      simp [Layer.enabledMatchesCounter, hc]
      rw [Layer.enabledMatchesCounter] at hinv
      simpa [Nat.pos_of_ne_zero hc] using hinv
  · rcases hc : l.enableCounter with _ | (_ | n) <;>
      simp [counterStep, Layer.decrementCounter, hc] at h
    · obtain ⟨h1, h2⟩ := h
      subst h1; subst h2
      simp [Layer.enabledMatchesCounter, hc]
    · obtain ⟨h1, h2⟩ := h
      subst h1; subst h2
      rw [Layer.enabledMatchesCounter] at hinv
      simp [Layer.enabledMatchesCounter, hc]
      simpa [hc] using hinv

/-- Trace form of the counter invariant, for an arbitrary starting layer
satisfying the `enabled`/counter agreement. -/
theorem counterTrace_characterization (l : Layer) (hinv : l.enabledMatchesCounter)
    (ops : List CounterOp) (r : CounterStep) (hr : r ∈ counterTrace l ops) :
    r.after.enabledMatchesCounter
    ∧ (r.events = [CallbackEvent.onEnable] ↔
        (r.op = CounterOp.inc ∧ r.before.enableCounter = 0))
    ∧ (r.events = [CallbackEvent.onDisable] ↔
        (r.op = CounterOp.dec ∧ r.before.enableCounter = 1))
    ∧ (r.events = [] ↔
        ¬(r.op = CounterOp.inc ∧ r.before.enableCounter = 0)
        ∧ ¬(r.op = CounterOp.dec ∧ r.before.enableCounter = 1)) := by
  induction ops generalizing l with
  | nil => simp [counterTrace] at hr
  | cons op ops ih =>
    rcases hstep : counterStep l op with e | v
    · simp [counterTrace, hstep] at hr
    · obtain ⟨l2, evs⟩ := v
      rw [counterTrace, hstep] at hr
      rcases List.mem_cons.mp hr with hhead | htail
      · subst hhead
        exact counterStep_characterization l op l2 evs hinv hstep
      · exact ih l2 (counterStep_characterization l op l2 evs hinv hstep).1 htail

/-- Claim C1: starting from any constructed layer, after every completed
`incrementCounter`/`decrementCounter` call of any finite call sequence,
`enabled` equals `enableCounter > 0`, and the call fires `onEnable`
exactly when it is the 0-to-1 increment, `onDisable` exactly when it is
the 1-to-0 decrement, and no callback on any other transition. -/
theorem counter_invariant_and_transitions (freshId : Nat) (o : LayerOptions)
    (ops : List CounterOp) (r : CounterStep)
    (hr : r ∈ counterTrace (Layer.construct freshId o) ops) :
    r.after.enabledMatchesCounter
    ∧ (r.events = [CallbackEvent.onEnable] ↔
        (r.op = CounterOp.inc ∧ r.before.enableCounter = 0))
    ∧ (r.events = [CallbackEvent.onDisable] ↔
        (r.op = CounterOp.dec ∧ r.before.enableCounter = 1))
    ∧ (r.events = [] ↔
        ¬(r.op = CounterOp.inc ∧ r.before.enableCounter = 0)
        ∧ ¬(r.op = CounterOp.dec ∧ r.before.enableCounter = 1)) :=
  counterTrace_characterization (Layer.construct freshId o)
    (construct_enabledMatchesCounter freshId o) ops r hr

/-- The first step of the concrete witness run for claim C1: a layer
constructed enabled (counter 1) receives `incrementCounter`, moving the
counter to 2 with no callback fired. -/
def c1WitnessStep : CounterStep :=
  { before := Layer.construct 0 defaultLayerOptions
    op := CounterOp.inc
    after := (Layer.construct 0 defaultLayerOptions).incrementCounter.1
    events := (Layer.construct 0 defaultLayerOptions).incrementCounter.2 }

/-- Witness for claim C1 on the concrete run `[inc]` from a default
constructed layer. -/
theorem counter_invariant_and_transitions_witness :
    c1WitnessStep.after.enabledMatchesCounter
    ∧ (c1WitnessStep.events = [CallbackEvent.onEnable] ↔
        (c1WitnessStep.op = CounterOp.inc ∧ c1WitnessStep.before.enableCounter = 0))
    ∧ (c1WitnessStep.events = [CallbackEvent.onDisable] ↔
        (c1WitnessStep.op = CounterOp.dec ∧ c1WitnessStep.before.enableCounter = 1))
    ∧ (c1WitnessStep.events = [] ↔
        ¬(c1WitnessStep.op = CounterOp.inc ∧ c1WitnessStep.before.enableCounter = 0)
        ∧ ¬(c1WitnessStep.op = CounterOp.dec ∧ c1WitnessStep.before.enableCounter = 1)) :=
  counter_invariant_and_transitions 0 defaultLayerOptions [CounterOp.inc]
    c1WitnessStep (by decide)

/-- `dedupKeepFirstAux` only depends on the membership of its `seen`
argument. -/
theorem dedupKeepFirstAux_congr (cs : List Nat) (s1 s2 : List Nat)
    (h : ∀ x, x ∈ s1 ↔ x ∈ s2) :
    dedupKeepFirstAux s1 cs = dedupKeepFirstAux s2 cs := by
  induction cs generalizing s1 s2 with
  | nil => rfl
  | cons c cs ih =>
    by_cases hc : c ∈ s1
    · rw [dedupKeepFirstAux, dedupKeepFirstAux, if_pos hc, if_pos ((h c).mp hc)]
      exact ih s1 s2 h
    · have hc2 : c ∉ s2 := fun hx => hc ((h c).mpr hx)
      rw [dedupKeepFirstAux, dedupKeepFirstAux, if_neg hc, if_neg hc2]
      refine congrArg (c :: ·) (ih (c :: s1) (c :: s2) ?_)
      intro x
      simp [List.mem_cons, h x]

/-- The incremental deduplicating fold equals the keep-first dedup with
the accumulator as the already-seen set. -/
theorem foldl_dedupPush_eq (cs : List Nat) :
    ∀ acc : List Nat, cs.foldl dedupPush acc = acc ++ dedupKeepFirstAux acc cs := by
  induction cs with
  | nil => intro acc; simp [dedupKeepFirstAux]
  | cons c cs ih =>
    intro acc
    by_cases hc : c ∈ acc
    · rw [List.foldl_cons, show dedupPush acc c = acc from if_pos hc, ih acc,
        dedupKeepFirstAux, if_pos hc]
    · rw [List.foldl_cons, show dedupPush acc c = acc ++ [c] from if_neg hc,
        ih (acc ++ [c]), dedupKeepFirstAux, if_neg hc]
      have hcongr : dedupKeepFirstAux (acc ++ [c]) cs = dedupKeepFirstAux (c :: acc) cs := by
        refine dedupKeepFirstAux_congr cs _ _ ?_
        intro x
        simp [List.mem_append, List.mem_cons, or_comm]
      simp [hcongr]

/-- Membership in the keep-first dedup. -/
theorem mem_dedupKeepFirstAux (x : Nat) (cs : List Nat) :
    ∀ seen : List Nat, x ∈ dedupKeepFirstAux seen cs ↔ x ∈ cs ∧ x ∉ seen := by
  induction cs with
  | nil => intro seen; simp [dedupKeepFirstAux]
  | cons c cs ih =>
    intro seen
    by_cases hc : c ∈ seen
    · rw [dedupKeepFirstAux, if_pos hc, ih seen]
      constructor
      · rintro ⟨h1, h2⟩
        exact ⟨List.mem_cons_of_mem c h1, h2⟩
      · rintro ⟨h1, h2⟩
        rcases List.mem_cons.mp h1 with rfl | h1
        · exact absurd hc h2
        · exact ⟨h1, h2⟩
    · rw [dedupKeepFirstAux, if_neg hc]
      simp only [List.mem_cons, ih (c :: seen)]
      constructor
      · rintro (rfl | ⟨h1, h2⟩)
        · exact ⟨Or.inl rfl, hc⟩
        · refine ⟨Or.inr h1, fun hx => h2 (Or.inr hx)⟩
      · rintro ⟨rfl | h1, h2⟩
        · exact Or.inl rfl
        · by_cases hxc : x = c
          · exact Or.inl hxc
          · exact Or.inr ⟨h1, by simp [List.mem_cons, hxc, h2]⟩

/-- Keep-first dedup of a concatenation splits with the first block added
to the seen set. -/
theorem dedupKeepFirstAux_append (xs ys : List Nat) :
    ∀ seen : List Nat,
      dedupKeepFirstAux seen (xs ++ ys)
        = dedupKeepFirstAux seen xs ++ dedupKeepFirstAux (xs ++ seen) ys := by
  induction xs with
  | nil => intro seen; simp [dedupKeepFirstAux]
  | cons c xs ih =>
    intro seen
    by_cases hc : c ∈ seen
    · simp only [List.cons_append, dedupKeepFirstAux, if_pos hc, List.append_eq]
      rw [ih seen]
      congr 1
      refine dedupKeepFirstAux_congr ys _ _ ?_
      intro x
      simp only [List.cons_append, List.mem_cons, List.mem_append]
      constructor
      · intro h; exact Or.inr h
      · rintro (rfl | h)
        · exact Or.inr hc
        · exact h
    · simp only [List.cons_append, dedupKeepFirstAux, if_neg hc, List.append_eq]
      rw [ih (c :: seen)]
      congr 2
      refine dedupKeepFirstAux_congr ys _ _ ?_
      intro x
      simp only [List.mem_cons, List.mem_append]
      constructor
      · rintro (h | (rfl | h))
        · exact Or.inr (Or.inl h)
        · exact Or.inl rfl
        · exact Or.inr (Or.inr h)
      · rintro (rfl | (h | h))
        · exact Or.inr (Or.inl rfl)
        · exact Or.inl h
        · exact Or.inr (Or.inr h)

/-- The operational camera recomputation equals the keep-first dedup of
the enabled entries' concatenated camera lists, relative to any
accumulator. -/
theorem rebuildCamerasFrom_eq (ll : List Layer) :
    ∀ (se : List Bool) (acc : List Nat),
      rebuildCamerasFrom ll se acc
        = acc ++ dedupKeepFirstAux acc (enabledEntriesCameras ll se) := by
  induction ll with
  | nil =>
    intro se acc
    cases se <;> simp [rebuildCamerasFrom, enabledEntriesCameras, dedupKeepFirstAux]
  | cons l ls ih =>
    intro se acc
    cases se with
    | nil => simp [rebuildCamerasFrom, enabledEntriesCameras, dedupKeepFirstAux]
    | cons e es =>
      cases e
      · simp only [rebuildCamerasFrom, if_neg Bool.false_ne_true, Bool.false_eq_true,
          if_false, enabledEntriesCameras, List.nil_append]
        exact ih es acc
      · simp only [rebuildCamerasFrom, enabledEntriesCameras, if_true]
        rw [ih es (l.cameras.foldl dedupPush acc), foldl_dedupPush_eq l.cameras acc,
          dedupKeepFirstAux_append l.cameras (enabledEntriesCameras ls es) acc]
        have hcongr :
            dedupKeepFirstAux (acc ++ dedupKeepFirstAux acc l.cameras)
                (enabledEntriesCameras ls es)
              = dedupKeepFirstAux (l.cameras ++ acc) (enabledEntriesCameras ls es) := by
          refine dedupKeepFirstAux_congr _ _ _ ?_
          intro x
          simp only [List.mem_append, mem_dedupKeepFirstAux]
          constructor
          · rintro (h | ⟨h1, h2⟩)
            · exact Or.inr h
            · exact Or.inl h1
          · rintro (h | h)
            · by_cases hx : x ∈ acc
              · exact Or.inl hx
              · exact Or.inr ⟨h, hx⟩
            · exact Or.inl h
        simp [hcongr]

/-- Every composition produced by the final camera recomputation satisfies
the spec-side camera aggregation equation. -/
theorem updateCameras_holdsSpec (c : LayerComposition) :
    (LayerComposition.updateCameras c).cameras
      = (LayerComposition.updateCameras c).camerasSpec := by
  show c.rebuildCameras
      = dedupKeepFirst (enabledEntriesCameras c.layerList c.subLayerEnabled)
  rw [LayerComposition.rebuildCameras, rebuildCamerasFrom_eq, dedupKeepFirst]
  simp

/-- Claim C2: after every mutating operation of a composition (the
push/insert/remove operations and their opaque/transparent variants, a
`subLayerEnabled` toggle, or a change to a referenced layer's camera set),
`cameras` equals the duplicate-free, order-stable union of `layer.cameras`
over exactly the entries whose `subLayerEnabled` flag is true. -/
theorem cameras_invariant (c : LayerComposition) (op : CompOp) :
    (applyCompOp c op).cameras = (applyCompOp c op).camerasSpec := by
  cases op <;> exact updateCameras_holdsSpec _

/-- Mapping commutes with block insertion. -/
theorem insertAllAt_map {α β : Type} (g : α → β) (i : Nat) (new xs : List α) :
    (insertAllAt i new xs).map g = insertAllAt i (new.map g) (xs.map g) := by
  simp [insertAllAt, List.map_take, List.map_drop]

/-- Simultaneous deletion on the three projections of a record list is the
projection of a filter on the record list. -/
theorem removeEntries_proj (f : Layer → Bool → Bool) (es : List SubLayerEntry) :
    removeEntries f (es.map (fun e => e.layer)) (es.map (fun e => e.isTransparent))
        (es.map (fun e => e.enabled))
      = ((es.filter (fun e => !(f e.layer e.isTransparent))).map (fun e => e.layer),
         (es.filter (fun e => !(f e.layer e.isTransparent))).map (fun e => e.isTransparent),
         (es.filter (fun e => !(f e.layer e.isTransparent))).map (fun e => e.enabled)) := by
  induction es with
  | nil => rfl
  | cons e es ih =>
    simp only [List.map_cons, removeEntries, ih, List.filter_cons]
    by_cases hf : f e.layer e.isTransparent
    · simp [hf]
    · simp [hf]

/-- Toggling the enabled field of one record leaves the layer projection
unchanged. -/
theorem modifyAt_proj_layer (i : Nat) (b : Bool) (es : List SubLayerEntry) :
    (modifyAt i (fun e => { e with enabled := b }) es).map (fun e => e.layer)
      = es.map (fun e => e.layer) := by
  induction es generalizing i with
  | nil => simp [modifyAt]
  | cons e es ih =>
    cases i with
    | zero => simp [modifyAt]
    | succ j => simp [modifyAt, ih]

/-- Toggling the enabled field of one record leaves the transparency
projection unchanged. -/
theorem modifyAt_proj_isTransparent (i : Nat) (b : Bool) (es : List SubLayerEntry) :
    (modifyAt i (fun e => { e with enabled := b }) es).map (fun e => e.isTransparent)
      = es.map (fun e => e.isTransparent) := by
  induction es generalizing i with
  | nil => simp [modifyAt]
  | cons e es ih =>
    cases i with
    | zero => simp [modifyAt]
    | succ j => simp [modifyAt, ih]

/-- Toggling the enabled field of one record is a positional update of the
enabled projection. -/
theorem modifyAt_proj_enabled (i : Nat) (b : Bool) (es : List SubLayerEntry) :
    (modifyAt i (fun e => { e with enabled := b }) es).map (fun e => e.enabled)
      = (es.map (fun e => e.enabled)).set i b := by
  induction es generalizing i with
  | nil => simp [modifyAt]
  | cons e es ih =>
    cases i with
    | zero => simp [modifyAt]
    | succ j => simp [modifyAt, ih]

/-- One composition operation on the parallel arrays is the projection of
the same operation on the record-based reference model. -/
theorem applyCompOp_refines (c : LayerComposition) (es : List SubLayerEntry) (op : CompOp)
    (h1 : c.layerList = es.map (fun e => e.layer))
    (h2 : c.subLayerList = es.map (fun e => e.isTransparent))
    (h3 : c.subLayerEnabled = es.map (fun e => e.enabled)) :
    (applyCompOp c op).layerList = (entriesApply es op).map (fun e => e.layer)
    ∧ (applyCompOp c op).subLayerList = (entriesApply es op).map (fun e => e.isTransparent)
    ∧ (applyCompOp c op).subLayerEnabled = (entriesApply es op).map (fun e => e.enabled) := by
  cases op with
  | push l =>
    refine ⟨?_, ?_, ?_⟩ <;>
      simp [applyCompOp, entriesApply, LayerComposition.updateCameras, h1, h2, h3]
  | insert l i =>
    refine ⟨?_, ?_, ?_⟩ <;>
      simp [applyCompOp, entriesApply, LayerComposition.updateCameras, h1, h2, h3,
        insertAllAt_map]
  | pushOpaque l =>
    refine ⟨?_, ?_, ?_⟩ <;>
      simp [applyCompOp, entriesApply, LayerComposition.updateCameras, h1, h2, h3]
  | insertOpaque l i =>
    refine ⟨?_, ?_, ?_⟩ <;>
      simp [applyCompOp, entriesApply, LayerComposition.updateCameras, h1, h2, h3,
        insertAllAt_map]
  | pushTransparent l =>
    refine ⟨?_, ?_, ?_⟩ <;>
      simp [applyCompOp, entriesApply, LayerComposition.updateCameras, h1, h2, h3]
  | insertTransparent l i =>
    refine ⟨?_, ?_, ?_⟩ <;>
      simp [applyCompOp, entriesApply, LayerComposition.updateCameras, h1, h2, h3,
        insertAllAt_map]
  | remove l =>
    refine ⟨?_, ?_, ?_⟩ <;>
      simp [applyCompOp, entriesApply, LayerComposition.updateCameras, h1, h2, h3,
        removeEntries_proj]
  | removeOpaque l =>
    refine ⟨?_, ?_, ?_⟩ <;>
      simp [applyCompOp, entriesApply, LayerComposition.updateCameras, h1, h2, h3,
        removeEntries_proj]
  | removeTransparent l =>
    refine ⟨?_, ?_, ?_⟩ <;>
      simp [applyCompOp, entriesApply, LayerComposition.updateCameras, h1, h2, h3,
        removeEntries_proj]
  | setSubLayerEnabled i b =>
    refine ⟨?_, ?_, ?_⟩ <;>
      simp [applyCompOp, entriesApply, LayerComposition.updateCameras, h1, h2, h3,
        modifyAt_proj_layer, modifyAt_proj_isTransparent, modifyAt_proj_enabled]
  | setLayerCameras lid cams =>
    refine ⟨?_, ?_, ?_⟩ <;>
      simp [applyCompOp, entriesApply, LayerComposition.updateCameras, h1, h2, h3,
        List.map_map, Function.comp]

/-- Run form of the refinement: the three parallel arrays of any reachable
composition are the projections of the record-model run. -/
theorem runComp_refines (ops : List CompOp) :
    ∀ (c : LayerComposition) (es : List SubLayerEntry),
      c.layerList = es.map (fun e => e.layer) →
      c.subLayerList = es.map (fun e => e.isTransparent) →
      c.subLayerEnabled = es.map (fun e => e.enabled) →
      (ops.foldl applyCompOp c).layerList
          = (ops.foldl entriesApply es).map (fun e => e.layer)
      ∧ (ops.foldl applyCompOp c).subLayerList
          = (ops.foldl entriesApply es).map (fun e => e.isTransparent)
      ∧ (ops.foldl applyCompOp c).subLayerEnabled
          = (ops.foldl entriesApply es).map (fun e => e.enabled) := by
  induction ops with
  | nil =>
    intro c es h1 h2 h3
    exact ⟨h1, h2, h3⟩
  | cons op ops ih =>
    intro c es h1 h2 h3
    obtain ⟨g1, g2, g3⟩ := applyCompOp_refines c es op h1 h2 h3
    simpa using ih (applyCompOp c op) (entriesApply es op) g1 g2 g3

/-- Claim C3: after any sequence of mutating calls from the empty
composition, the three parallel arrays are the projections of one record
list — the `(layer, isTransparent, enabled)` reference model, in which
the boolean at index i is by construction the transparent/opaque partition
tag of the layer at index i — and in particular the three arrays always
have equal length. -/
theorem parallel_arrays_aligned (ops : List CompOp) :
    (runComp ops).layerList = (runEntries ops).map (fun e => e.layer)
    ∧ (runComp ops).subLayerList = (runEntries ops).map (fun e => e.isTransparent)
    ∧ (runComp ops).subLayerEnabled = (runEntries ops).map (fun e => e.enabled)
    ∧ (runComp ops).layerList.length = (runComp ops).subLayerList.length
    ∧ (runComp ops).subLayerList.length = (runComp ops).subLayerEnabled.length := by
  obtain ⟨h1, h2, h3⟩ := runComp_refines ops LayerComposition.emptyComp [] rfl rfl rfl
  have g1 : (runComp ops).layerList = (runEntries ops).map (fun e => e.layer) := h1
  have g2 : (runComp ops).subLayerList = (runEntries ops).map (fun e => e.isTransparent) := h2
  have g3 : (runComp ops).subLayerEnabled = (runEntries ops).map (fun e => e.enabled) := h3
  refine ⟨g1, g2, g3, ?_, ?_⟩
  · rw [g1, g2]
    simp
  · rw [g2, g3]
    simp

/-- Removing an absent mesh instance leaves the list unchanged. -/
theorem eraseFirst_of_not_mem (xs : List MeshInstance) (m : MeshInstance) (h : m ∉ xs) :
    eraseFirst xs m = xs := by
  induction xs with
  | nil => rfl
  | cons x rest ih =>
    rw [eraseFirst, if_neg (fun hxm : x = m => h (hxm ▸ List.mem_cons_self x rest)),
      ih (fun hx => h (List.mem_cons_of_mem x hx))]

/-- Removing the just-appended instance recovers the original list when the
instance was not already present. -/
theorem eraseFirst_append_self (xs : List MeshInstance) (m : MeshInstance) (h : m ∉ xs) :
    eraseFirst (xs ++ [m]) m = xs := by
  induction xs with
  | nil => simp [eraseFirst]
  | cons x rest ih =>
    rw [List.cons_append, eraseFirst,
      if_neg (fun hxm : x = m => h (hxm ▸ List.mem_cons_self x rest)),
      ih (fun hx => h (List.mem_cons_of_mem x hx))]

/-- Removing an absent numeric handle leaves the list unchanged. -/
theorem eraseFirstNat_of_not_mem (xs : List Nat) (x : Nat) (h : x ∉ xs) :
    eraseFirstNat xs x = xs := by
  induction xs with
  | nil => rfl
  | cons y rest ih =>
    rw [eraseFirstNat, if_neg (fun hyx : y = x => h (hyx ▸ List.mem_cons_self y rest)),
      ih (fun hx => h (List.mem_cons_of_mem y hx))]

/-- Claim C7 (amended): for a mesh instance not already present in the
layer's render lists, `addMeshInstances [m]` with `skipShadowCasters=false`
followed by `removeMeshInstances [m]` with `skipShadowCasters=true` leaves
`m` present in `shadowCasters` and absent from both render lists. -/
theorem add_then_remove_keeps_shadowCaster (l : Layer) (m : MeshInstance)
    (ho : m ∉ l.opaqueMeshInstances) (ht : m ∉ l.transparentMeshInstances) :
    m ∈ ((l.addMeshInstances [m] false).removeMeshInstances [m] true).shadowCasters
    ∧ m ∉ ((l.addMeshInstances [m] false).removeMeshInstances [m] true).opaqueMeshInstances
    ∧ m ∉ ((l.addMeshInstances [m] false).removeMeshInstances [m] true).transparentMeshInstances := by
  cases htr : m.transparent
  · simp [Layer.addMeshInstances, Layer.removeMeshInstances, Layer.addMeshInstance1,
      Layer.removeMeshInstance1, htr, ho, ht, eraseFirst_append_self _ _ ho]
  · simp [Layer.addMeshInstances, Layer.removeMeshInstances, Layer.addMeshInstance1,
      Layer.removeMeshInstance1, htr, ho, ht, eraseFirst_append_self _ _ ht]

/-- A mesh instance used by the concrete runs below. -/
def mInstA : MeshInstance := { mid := 0, transparent := false, drawOrder := 0 }

/-- A layer that already holds `mInstA` in its opaque render list. -/
def dupLayer : Layer :=
  { id := 5, name := "dup", enabled := true, enableCounter := 1,
    opaqueSortMode := 2, transparentSortMode := 3,
    opaqueMeshInstances := [mInstA], transparentMeshInstances := [],
    shadowCasters := [], lights := [], cameras := [] }

/-- Claim C7 as stated is false for a layer that already contains the
instance: the add/remove pair leaves a second copy of the instance in the
opaque render list, so the instance is not absent from the render lists. -/
theorem add_then_remove_keeps_shadowCaster_counterexample :
    ¬ (mInstA ∈ ((dupLayer.addMeshInstances [mInstA] false).removeMeshInstances
          [mInstA] true).shadowCasters
       ∧ mInstA ∉ ((dupLayer.addMeshInstances [mInstA] false).removeMeshInstances
          [mInstA] true).opaqueMeshInstances
       ∧ mInstA ∉ ((dupLayer.addMeshInstances [mInstA] false).removeMeshInstances
          [mInstA] true).transparentMeshInstances) := by
  decide

/-- Witness for the amended claim C7 on a freshly constructed layer and a
transparent mesh instance. -/
theorem add_then_remove_keeps_shadowCaster_witness :
    (⟨1, true, 0⟩ : MeshInstance)
        ∈ (((Layer.construct 1 defaultLayerOptions).addMeshInstances
              [⟨1, true, 0⟩] false).removeMeshInstances [⟨1, true, 0⟩] true).shadowCasters
    ∧ (⟨1, true, 0⟩ : MeshInstance)
        ∉ (((Layer.construct 1 defaultLayerOptions).addMeshInstances
              [⟨1, true, 0⟩] false).removeMeshInstances [⟨1, true, 0⟩] true).opaqueMeshInstances
    ∧ (⟨1, true, 0⟩ : MeshInstance)
        ∉ (((Layer.construct 1 defaultLayerOptions).addMeshInstances
              [⟨1, true, 0⟩] false).removeMeshInstances [⟨1, true, 0⟩] true).transparentMeshInstances :=
  add_then_remove_keeps_shadowCaster (Layer.construct 1 defaultLayerOptions)
    ⟨1, true, 0⟩ (by decide) (by decide)

/-- Removing one absent mesh instance changes nothing in the layer. -/
theorem removeMeshInstances_absent (l : Layer) (m : MeshInstance) (skip : Bool)
    (ho : m ∉ l.opaqueMeshInstances) (ht : m ∉ l.transparentMeshInstances)
    (hs : m ∉ l.shadowCasters) :
    l.removeMeshInstances [m] skip = l := by
  cases skip <;>
    simp [Layer.removeMeshInstances, Layer.removeMeshInstance1, ho,
      eraseFirst_of_not_mem _ _ ht, eraseFirst_of_not_mem _ _ hs]

/-- Removing an absent light changes nothing in the layer. -/
theorem removeLight_absent (l : Layer) (x : Nat) (h : x ∉ l.lights) :
    l.removeLight x = l := by
  simp [Layer.removeLight, eraseFirstNat_of_not_mem _ _ h]

/-- Removing an absent camera changes nothing in the layer. -/
theorem removeCamera_absent (l : Layer) (x : Nat) (h : x ∉ l.cameras) :
    l.removeCamera x = l := by
  simp [Layer.removeCamera, eraseFirstNat_of_not_mem _ _ h]

/-- Simultaneous deletion deletes nothing when no position matches. -/
theorem removeEntries_of_none (f : Layer → Bool → Bool) (ll : List Layer) :
    ∀ (sl se : List Bool), (∀ l ∈ ll, ∀ s, f l s = false) →
      removeEntries f ll sl se = (ll, sl, se) := by
  induction ll with
  | nil =>
    intro sl se _
    cases sl <;> cases se <;> simp [removeEntries]
  | cons l ls ih =>
    intro sl se h
    cases sl with
    | nil => simp [removeEntries]
    | cons s ss =>
      cases se with
      | nil => simp [removeEntries]
      | cons e es =>
        have h0 : f l s = false := h l (List.mem_cons_self l ls) s
        have hr := ih ss es (fun x hx s2 => h x (List.mem_cons_of_mem l hx) s2)
        simp [removeEntries, h0, hr]

/-- Removing a layer that has no entry in a well-formed composition leaves
the composition unchanged, for all three removal variants. -/
theorem comp_remove_absent (c : LayerComposition) (l : Layer)
    (hid : ∀ x ∈ c.layerList, x.id ≠ l.id)
    (hcam : c.cameras = c.rebuildCameras) :
    applyCompOp c (CompOp.remove l) = c
    ∧ applyCompOp c (CompOp.removeOpaque l) = c
    ∧ applyCompOp c (CompOp.removeTransparent l) = c := by
  obtain ⟨ll, sl, se, cams⟩ := c
  have hne : ∀ x ∈ ll, (x.id == l.id) = false := by
    intro x hx
    have := hid x hx
    simpa using this
  have h1 := removeEntries_of_none (fun x _ => x.id == l.id) ll sl se
    (fun x hx _ => hne x hx)
  have h2 := removeEntries_of_none (fun x s => x.id == l.id && !s) ll sl se
    (fun x hx s => by simp [hne x hx])
  have h3 := removeEntries_of_none (fun x s => x.id == l.id && s) ll sl se
    (fun x hx s => by simp [hne x hx])
  refine ⟨?_, ?_, ?_⟩ <;>
    simp [applyCompOp, h1, h2, h3, LayerComposition.updateCameras,
      LayerComposition.rebuildCameras, hcam] at hcam ⊢ <;>
    simp [hcam]

/-- A layer-id lookup on a composition with no matching entry returns the
null value, never raising. -/
theorem getLayerById_miss (c : LayerComposition) (i : Nat)
    (h : ∀ x ∈ c.layerList, x.id ≠ i) : c.getLayerById i = none := by
  rw [LayerComposition.getLayerById, List.find?_eq_none]
  intro x hx
  simp [h x hx]

/-- A layer-name lookup on a composition with no matching entry returns the
null value, never raising. -/
theorem getLayerByName_miss (c : LayerComposition) (nm : String)
    (h : ∀ x ∈ c.layerList, x.name ≠ nm) : c.getLayerByName nm = none := by
  rw [LayerComposition.getLayerByName, List.find?_eq_none]
  intro x hx
  simp [h x hx]

/-- Claim C8: removing an item that is not present — a mesh instance, a
light, a camera, or a layer entry (all three removal variants, on a
composition whose camera aggregate is well-formed) — leaves the whole
observable state unchanged (and, all modelled removals being total
functions, returns normally), and `getLayerById`/`getLayerByName` return
the null value on a miss rather than raising. -/
theorem absent_removals_are_noops :
    (∀ (l : Layer) (m : MeshInstance) (skip : Bool),
        m ∉ l.opaqueMeshInstances → m ∉ l.transparentMeshInstances →
        m ∉ l.shadowCasters → l.removeMeshInstances [m] skip = l)
    ∧ (∀ (l : Layer) (x : Nat), x ∉ l.lights → l.removeLight x = l)
    ∧ (∀ (l : Layer) (x : Nat), x ∉ l.cameras → l.removeCamera x = l)
    ∧ (∀ (c : LayerComposition) (l : Layer),
        (∀ x ∈ c.layerList, x.id ≠ l.id) → c.cameras = c.rebuildCameras →
        applyCompOp c (CompOp.remove l) = c
        ∧ applyCompOp c (CompOp.removeOpaque l) = c
        ∧ applyCompOp c (CompOp.removeTransparent l) = c)
    ∧ (∀ (c : LayerComposition) (i : Nat),
        (∀ x ∈ c.layerList, x.id ≠ i) → c.getLayerById i = none)
    ∧ (∀ (c : LayerComposition) (nm : String),
        (∀ x ∈ c.layerList, x.name ≠ nm) → c.getLayerByName nm = none) :=
  ⟨removeMeshInstances_absent, removeLight_absent, removeCamera_absent,
   comp_remove_absent, getLayerById_miss, getLayerByName_miss⟩

/-- Witness for claim C8 at concrete absent items. -/
theorem absent_removals_are_noops_witness :
    dupLayer.removeMeshInstances [⟨9, true, 0⟩] false = dupLayer
    ∧ dupLayer.removeLight 3 = dupLayer
    ∧ dupLayer.removeCamera 4 = dupLayer
    ∧ applyCompOp LayerComposition.emptyComp (CompOp.remove dupLayer)
        = LayerComposition.emptyComp
    ∧ LayerComposition.emptyComp.getLayerById 5 = none
    ∧ LayerComposition.emptyComp.getLayerByName "missing" = none :=
  ⟨absent_removals_are_noops.1 dupLayer ⟨9, true, 0⟩ false (by decide) (by decide) (by decide),
   absent_removals_are_noops.2.1 dupLayer 3 (by decide),
   absent_removals_are_noops.2.2.1 dupLayer 4 (by decide),
   (absent_removals_are_noops.2.2.2.1 LayerComposition.emptyComp dupLayer
      (by simp [LayerComposition.emptyComp]) (by decide)).1,
   absent_removals_are_noops.2.2.2.2.1 LayerComposition.emptyComp 5
      (by simp [LayerComposition.emptyComp]),
   absent_removals_are_noops.2.2.2.2.2 LayerComposition.emptyComp "missing"
      (by simp [LayerComposition.emptyComp])⟩

/-- Membership in the stable insertion step. -/
theorem mem_insertByDrawOrder (y m : MeshInstance) (l : List MeshInstance) :
    y ∈ insertByDrawOrder m l ↔ y = m ∨ y ∈ l := by
  induction l with
  | nil => simp [insertByDrawOrder]
  | cons x xs ih =>
    rw [insertByDrawOrder]
    by_cases h : m.drawOrder ≤ x.drawOrder
    · rw [if_pos h]
      simp [List.mem_cons]
    · rw [if_neg h]
      simp [List.mem_cons, ih]
      tauto

/-- The stable insertion step preserves sortedness by the order key. -/
theorem pairwise_insertByDrawOrder (m : MeshInstance) (l : List MeshInstance)
    (h : List.Pairwise (fun a b => a.drawOrder ≤ b.drawOrder) l) :
    List.Pairwise (fun a b => a.drawOrder ≤ b.drawOrder) (insertByDrawOrder m l) := by
  induction l with
  | nil => simp [insertByDrawOrder]
  | cons x xs ih =>
    rw [insertByDrawOrder]
    rcases List.pairwise_cons.mp h with ⟨hx, hxs⟩
    by_cases hle : m.drawOrder ≤ x.drawOrder
    · rw [if_pos hle]
      refine List.Pairwise.cons ?_ h
      intro y hy
      rcases List.mem_cons.mp hy with rfl | hy
      · exact hle
      · exact le_trans hle (hx y hy)
    · rw [if_neg hle]
      refine List.Pairwise.cons ?_ (ih hxs)
      intro y hy
      rcases (mem_insertByDrawOrder y m xs).mp hy with rfl | hy
      · exact le_of_not_le hle
      · exact hx y hy

/-- Instances whose key does not match pass through the insertion step
unchanged under a key filter. -/
theorem filter_insertByDrawOrder_ne (p : MeshInstance → Bool) (m : MeshInstance)
    (l : List MeshInstance) (hp : p m = false) :
    (insertByDrawOrder m l).filter p = l.filter p := by
  induction l with
  | nil => simp [insertByDrawOrder, List.filter_cons, hp]
  | cons x xs ih =>
    rw [insertByDrawOrder]
    by_cases hle : m.drawOrder ≤ x.drawOrder
    · rw [if_pos hle]
      simp [List.filter_cons, hp]
    · rw [if_neg hle]
      simp [List.filter_cons, ih]

/-- Under the filter of its own key, the insertion step places the new
instance in front of all equal-key instances already placed — every
already-placed instance it passes has a strictly smaller key. -/
theorem filter_insertByDrawOrder_eq (m : MeshInstance) (l : List MeshInstance) :
    (insertByDrawOrder m l).filter (fun a => a.drawOrder == m.drawOrder)
      = m :: l.filter (fun a => a.drawOrder == m.drawOrder) := by
  induction l with
  | nil => simp [insertByDrawOrder]
  | cons x xs ih =>
    rw [insertByDrawOrder]
    by_cases hle : m.drawOrder ≤ x.drawOrder
    · rw [if_pos hle]
      simp [List.filter_cons]
    · rw [if_neg hle]
      have hxm : (x.drawOrder == m.drawOrder) = false := by
        rw [beq_eq_false_iff_ne]
        omega
      simp [List.filter_cons, hxm, ih]

/-- `MANUAL` sorting is sorted by the order key. -/
theorem sortManual_sorted (ms : List MeshInstance) :
    List.Pairwise (fun a b => a.drawOrder ≤ b.drawOrder) (sortManual ms) := by
  induction ms with
  | nil => simp [sortManual]
  | cons m rest ih => exact pairwise_insertByDrawOrder m _ ih

/-- `MANUAL` sorting preserves the relative order of equal-key instances:
the filter at any key is untouched. -/
theorem sortManual_stable_filter (ms : List MeshInstance) (k : Nat) :
    (sortManual ms).filter (fun a => a.drawOrder == k)
      = ms.filter (fun a => a.drawOrder == k) := by
  induction ms with
  | nil => rfl
  | cons m rest ih =>
    rw [sortManual]
    by_cases hk : m.drawOrder = k
    · subst hk
      rw [filter_insertByDrawOrder_eq m (sortManual rest), ih]
      simp [List.filter_cons]
    · have hm : (fun a : MeshInstance => a.drawOrder == k) m = false := by
        rw [beq_eq_false_iff_ne]
        exact hk
      rw [filter_insertByDrawOrder_ne _ m _ hm, ih]
      simp [List.filter_cons, hm]

/-- The three concrete instances of the claim's example, inserted in the
order A(key 1), B(key 1), C(key 0). -/
def mInstKeyA : MeshInstance := { mid := 10, transparent := false, drawOrder := 1 }

/-- Second equal-key instance of the example. -/
def mInstKeyB : MeshInstance := { mid := 11, transparent := false, drawOrder := 1 }

/-- The smaller-key instance of the example. -/
def mInstKeyC : MeshInstance := { mid := 12, transparent := false, drawOrder := 0 }

/-- Claim C9: `MANUAL`-mode sorting of a render list is a stable sort by
the externally supplied order key — on the example [A(1), B(1), C(0)] it
yields [C, A, B], and in general the result is sorted by key while the
relative order of instances at each fixed key (their insertion order) is
preserved. -/
theorem manual_sort_is_stable_by_key :
    sortRenderList SORTMODE_MANUAL [mInstKeyA, mInstKeyB, mInstKeyC]
        = [mInstKeyC, mInstKeyA, mInstKeyB]
    ∧ (∀ ms : List MeshInstance,
        List.Pairwise (fun a b => a.drawOrder ≤ b.drawOrder)
          (sortRenderList SORTMODE_MANUAL ms))
    ∧ (∀ (ms : List MeshInstance) (k : Nat),
        (sortRenderList SORTMODE_MANUAL ms).filter (fun a => a.drawOrder == k)
          = ms.filter (fun a => a.drawOrder == k)) := by
  refine ⟨by decide, ?_, ?_⟩
  · intro ms
    simpa [sortRenderList] using sortManual_sorted ms
  · intro ms k
    simpa [sortRenderList] using sortManual_stable_filter ms k

/-- Supporting concrete check of the spec-modelled lookup behaviour: on a
fresh composition, `push` yields opaque index 0 and transparent index 1,
and a subsequent `remove` makes both lookups return the `-1` sentinel. -/
theorem push_then_indices_then_remove_concrete :
    (applyCompOp LayerComposition.emptyComp (CompOp.push dupLayer)).getOpaqueIndex dupLayer = 0
    ∧ (applyCompOp LayerComposition.emptyComp (CompOp.push dupLayer)).getTransparentIndex dupLayer = 1
    ∧ (applyCompOp (applyCompOp LayerComposition.emptyComp (CompOp.push dupLayer))
        (CompOp.remove dupLayer)).getOpaqueIndex dupLayer = -1
    ∧ (applyCompOp (applyCompOp LayerComposition.emptyComp (CompOp.push dupLayer))
        (CompOp.remove dupLayer)).getTransparentIndex dupLayer = -1 := by
  refine ⟨rfl, rfl, rfl, rfl⟩
